import Mathlib

/-! Signal interception of CaDiCaL (`src/signal.cpp`).

A shallow embedding of the non-Windows build of `signal.cpp`: the file-scope
static variables become the fields of `State`, every function becomes a state
transformer, and the calls that leave the file (`signal`, `raise`, `alarm` of
the C library, the virtual methods of the `Handler`, the clock
`absolute_real_time`) are made explicit.

* The OS disposition table is part of the state (`State.os`).
* Calls that are observable from outside are appended to `State.trace`.
* A clock reading is a rational number passed in by the caller; a `double`
  is a rational and the addition `absolute_real_time () + seconds` is taken
  exactly.
* `assert` is modelled for a build in which assertions are compiled in.
-/

namespace CaDiCaL

/-- Numbers of the five signals named in `signal.cpp`.  They come from
`<csignal>` and differ between platforms, so the development is parametric in
them; the only fact used is that the five numbers are different. -/
structure SigNums where
  SIGABRT : Int
  SIGINT : Int
  SIGSEGV : Int
  SIGTERM : Int
  SIGALRM : Int
  distinct : [SIGABRT, SIGINT, SIGSEGV, SIGTERM, SIGALRM].Nodup

/-- The numbering used by Linux (and fixed by POSIX for all but `SIGSEGV`). -/
def linux : SigNums := ⟨6, 2, 11, 15, 14, by decide⟩

/-- A value of type `void (*)(int)`.  `null` is the pointer `0`, which is how
`SIG_DFL` is defined, so a cleared slot and the default disposition are the
same value; `trampoline` is the address of the static function
`catch_signal`; `foreign n` is any other function. -/
inductive Disposition where
  | null
  | ign
  | trampoline
  | foreign (n : Nat)
deriving DecidableEq, Repr

/-- A `Handler` object.  `catch_signal` is pure virtual, `catch_alarm` is
virtual with the default body of line 31; the flag says whether the dynamic
class of the object replaces that default. -/
structure Handler where
  id : Nat
  overrides_catch_alarm : Bool
deriving DecidableEq, Repr

/-- Calls that leave `signal.cpp`, in the order they are made. -/
inductive Event where
  /-- Entry of the virtual method `catch_signal (sig)` of a handler. -/
  | catch_signal (h : Handler) (sig : Int)
  /-- Entry of the virtual method `catch_alarm ()` of a handler. -/
  | catch_alarm (h : Handler)
  /-- Call of `::raise (sig)`, with the OS disposition of `sig` in force at
  that moment. -/
  | raise (sig : Int) (under : Disposition)
  /-- Call of `::alarm (seconds)`. -/
  | alarm (seconds : Int)
deriving DecidableEq, Repr

/-- The static variables of `signal.cpp` (lines 22-29, 41-53), the OS
disposition table and the trace of outside calls. -/
@[ext]
structure State where
  os : Int → Disposition
  caught_signal : Bool
  signal_handler : Option Handler
  caught_alarm : Bool
  alarm_set : Bool
  alarm_time : Int
  SIGABRT_handler : Disposition
  SIGINT_handler : Disposition
  SIGSEGV_handler : Disposition
  SIGTERM_handler : Disposition
  SIGALRM_handler : Disposition
  trace : List Event

/-- The values the static initialisers give, over a disposition table `d`. -/
def State.initial (d : Int → Disposition) : State :=
  { os := d, caught_signal := false, signal_handler := none,
    caught_alarm := false, alarm_set := false, alarm_time := -1,
    SIGABRT_handler := .null, SIGINT_handler := .null,
    SIGSEGV_handler := .null, SIGTERM_handler := .null,
    SIGALRM_handler := .null, trace := [] }

/-- Append one outside call to the trace. -/
def emit (e : Event) (s : State) : State :=
  { s with trace := s.trace ++ [e] }

namespace OS

/-- The C library call `signal (sig, h)`: installs `h` for `sig` and returns
the disposition that was in force. -/
def signal (sig : Int) (h : Disposition) (s : State) : Disposition × State :=
  (s.os sig, { s with os := Function.update s.os sig h })

/-- The C library call `raise (sig)`.  Only the call is recorded, together
with the disposition under which the signal is then delivered. -/
def raise (sig : Int) (s : State) : State :=
  emit (.raise sig (s.os sig)) s

/-- The call `::alarm (seconds)`. -/
def alarm (seconds : Int) (s : State) : State :=
  emit (.alarm seconds) s

end OS

/-- Conversion of a `double` to `int`: the fractional part is discarded
(rounding toward zero). -/
def to_int (x : ℚ) : Int :=
  if 0 ≤ x then ⌊x⌋ else ⌈x⌉

/-- The virtual call `h->catch_signal (sig)`.  `body` is what the body
supplied by the subclass does to the state of this file while it runs
(`id` for a handler that only prints). -/
def Handler.catch_signal (body : State → State) (h : Handler) (sig : Int)
    (s : State) : State :=
  body (emit (.catch_signal h sig) s)

/-- The virtual call `h->catch_alarm ()`.  Line 31: unless the subclass
overrides it, `Handler::catch_alarm` calls the member function
`catch_signal (SIGALRM)` of the same object. -/
def Handler.catch_alarm (N : SigNums) (body : State → State) (h : Handler)
    (s : State) : State :=
  if h.overrides_catch_alarm then body (emit (.catch_alarm h) s)
  else Handler.catch_signal body h N.SIGALRM (emit (.catch_alarm h) s)

namespace Signal

/-- Lines 57-64. -/
def reset_alarm (N : SigNums) (s : State) : State :=
  if !s.alarm_set then s
  else
    let s := (OS.signal N.SIGALRM s.SIGALRM_handler s).2
    let s := { s with SIGALRM_handler := .null }
    let s := { s with caught_alarm := false }
    let s := { s with alarm_set := false }
    { s with alarm_time := -1 }

/-- Lines 68-79, with the `SIGNALS` list expanded in its order
`SIGABRT`, `SIGINT`, `SIGSEGV`, `SIGTERM`. -/
def reset (N : SigNums) (s : State) : State :=
  let s := { s with signal_handler := none }
  let s := (OS.signal N.SIGABRT s.SIGABRT_handler s).2
  let s := { s with SIGABRT_handler := .null }
  let s := (OS.signal N.SIGINT s.SIGINT_handler s).2
  let s := { s with SIGINT_handler := .null }
  let s := (OS.signal N.SIGSEGV s.SIGSEGV_handler s).2
  let s := { s with SIGSEGV_handler := .null }
  let s := (OS.signal N.SIGTERM s.SIGTERM_handler s).2
  let s := { s with SIGTERM_handler := .null }
  let s := reset_alarm N s
  { s with caught_signal := false }

/-- Lines 81-90. -/
def name (N : SigNums) (sig : Int) : String :=
  if sig = N.SIGABRT then "SIGABRT"
  else if sig = N.SIGINT then "SIGINT"
  else if sig = N.SIGSEGV then "SIGSEGV"
  else if sig = N.SIGTERM then "SIGTERM"
  else if sig = N.SIGALRM then "SIGALRM"
  else "UNKNOWN"

end Signal

/-- Lines 98-116, the function installed as signal disposition.  `now` is
the value `absolute_real_time ()` returns if it is called, `body` is passed
on to the handler call. -/
def catch_signal (N : SigNums) (body : State → State) (now : ℚ) (sig : Int)
    (s : State) : State :=
  if sig = N.SIGALRM ∧ (s.alarm_time : ℚ) ≤ now then
    let s :=
      if !s.caught_alarm then
        let s := { s with caught_alarm := true }
        match s.signal_handler with
        | some h => Handler.catch_alarm N body h s
        | none => s
      else s
    Signal.reset_alarm N s
  else
    let s :=
      if !s.caught_signal then
        let s := { s with caught_signal := true }
        match s.signal_handler with
        | some h => Handler.catch_signal body h sig s
        | none => s
      else s
    let s := Signal.reset N s
    OS.raise sig s

/-- Delivery of `sig` to the trampoline at clock value `now`, for a handler
whose method bodies leave the state of this file alone. -/
def deliver (N : SigNums) (now : ℚ) (sig : Int) (s : State) : State :=
  catch_signal N id now sig s

/-- How a call of a function with assertions ends. -/
inductive Outcome where
  | assertion_failed (expr : String) (s : State)
  | returned (s : State)

namespace Signal

/-- Lines 118-130, with the `SIGNALS` list expanded in its order. -/
def set (N : SigNums) (h : Option Handler) (s : State) : State :=
  let s := { s with signal_handler := h }
  let r := OS.signal N.SIGABRT .trampoline s
  let s := { r.2 with SIGABRT_handler := r.1 }
  let r := OS.signal N.SIGINT .trampoline s
  let s := { r.2 with SIGINT_handler := r.1 }
  let r := OS.signal N.SIGSEGV .trampoline s
  let s := { r.2 with SIGSEGV_handler := r.1 }
  let r := OS.signal N.SIGTERM .trampoline s
  { r.2 with SIGTERM_handler := r.1 }

/-- Lines 134-142.  The three assertions are checked in order; the first one
that fails ends the call with the state as it is at that point. -/
def alarm (N : SigNums) (now : ℚ) (seconds : Int) (s : State) : Outcome :=
  if ¬ (seconds ≥ 0) then .assertion_failed "seconds >= 0" s
  else if ¬ (s.alarm_set = false) then .assertion_failed "!alarm_set" s
  else if ¬ (s.alarm_time < 0) then .assertion_failed "alarm_time < 0" s
  else
    let r := OS.signal N.SIGALRM .trampoline s
    let s := { r.2 with SIGALRM_handler := r.1 }
    let s := { s with alarm_set := true }
    let s := { s with alarm_time := to_int (now + seconds) }
    .returned (OS.alarm seconds s)

end Signal

/-- No interception is active: every static variable has the value its
initialiser gives and the trampoline is the OS disposition of no signal. -/
def NoInterception (s : State) : Prop :=
  s.signal_handler = none ∧ s.caught_signal = false ∧ s.caught_alarm = false ∧
  s.alarm_set = false ∧ s.alarm_time = -1 ∧
  s.SIGABRT_handler = .null ∧ s.SIGINT_handler = .null ∧
  s.SIGSEGV_handler = .null ∧ s.SIGTERM_handler = .null ∧
  s.SIGALRM_handler = .null ∧ ∀ sig, s.os sig ≠ .trampoline

/-- The four signals of the `SIGNALS` list. -/
@[reducible]
def IsFatal (N : SigNums) (sig : Int) : Prop :=
  sig = N.SIGABRT ∨ sig = N.SIGINT ∨ sig = N.SIGSEGV ∨ sig = N.SIGTERM

/-- The signals for which the trampoline is ever installed. -/
@[reducible]
def IsMonitored (N : SigNums) (sig : Int) : Prop :=
  IsFatal N sig ∨ sig = N.SIGALRM

/-- The slot that belongs to a fatal signal. -/
def fatal_slot (N : SigNums) (sig : Int) (s : State) : Disposition :=
  if sig = N.SIGABRT then s.SIGABRT_handler
  else if sig = N.SIGINT then s.SIGINT_handler
  else if sig = N.SIGSEGV then s.SIGSEGV_handler
  else s.SIGTERM_handler

/-- What the fatal branch of the trampoline reports in state `s`: the call
of `catch_signal` of the active handler, unless a report was made already or
no handler is active. -/
def fatal_report (sig : Int) (s : State) : List Event :=
  if s.caught_signal then []
  else
    match s.signal_handler with
    | some h => [.catch_signal h sig]
    | none => []

/-- What the alarm branch of the trampoline reports in state `s`: the call
of `catch_alarm` of the active handler, followed by the call of
`catch_signal (SIGALRM)` that the default body of `catch_alarm` makes. -/
def alarm_report (N : SigNums) (s : State) : List Event :=
  if s.caught_alarm then []
  else
    match s.signal_handler with
    | some h =>
      if h.overrides_catch_alarm then [.catch_alarm h]
      else [.catch_alarm h, .catch_signal h N.SIGALRM]
    | none => []

/-- Entries of `h->catch_signal` in a trace. -/
def catch_signal_calls (h : Handler) (t : List Event) : Nat :=
  t.countP (fun e => match e with
    | .catch_signal g _ => decide (g = h)
    | _ => false)

/-- Entries of `h->catch_alarm` in a trace. -/
def catch_alarm_calls (h : Handler) (t : List Event) : Nat :=
  t.countP (fun e => match e with
    | .catch_alarm g => decide (g = h)
    | _ => false)

/-- Calls of `raise` in a trace. -/
def raise_calls (t : List Event) : Nat :=
  t.countP (fun e => match e with
    | .raise _ _ => true
    | _ => false)

/-- The state in which a call ends. -/
def Outcome.state : Outcome → State
  | .assertion_failed _ s => s
  | .returned s => s

/-- Whether a call ended in an assertion failure. -/
def Outcome.failed : Outcome → Bool
  | .assertion_failed _ _ => true
  | .returned _ => false

/-- The fixed set of labels, one for each monitored signal, as the
specification lists it. -/
def labels (N : SigNums) : List (Int × String) :=
  [(N.SIGABRT, "SIGABRT"), (N.SIGINT, "SIGINT"), (N.SIGSEGV, "SIGSEGV"),
   (N.SIGTERM, "SIGTERM"), (N.SIGALRM, "SIGALRM")]

/-- Label of `sig` found by comparing with the entries of `l` in their
order, with the fallback label when no entry matches. -/
def lookup_label (l : List (Int × String)) (sig : Int) : String :=
  match l.find? (fun p => decide (sig = p.1)) with
  | some p => p.2
  | none => "UNKNOWN"

/-- One step of a run: a call of one of the four functions of the
interface, or a delivery of a signal to the trampoline.  The clock value a
step reads is part of the step. -/
inductive Op where
  | set (h : Option Handler)
  | reset
  | reset_alarm
  | alarm (now : ℚ) (seconds : Int)
  | deliver (now : ℚ) (sig : Int)

/-- The state after one step. -/
def Op.apply (N : SigNums) : Op → State → State
  | .set h, s => Signal.set N h s
  | .reset, s => Signal.reset N s
  | .reset_alarm, s => Signal.reset_alarm N s
  | .alarm now seconds, s => (Signal.alarm N now seconds s).state
  | .deliver now sig, s => CaDiCaL.deliver N now sig s

/-- A process in which every signal is ignored and nothing of this file has
run yet. -/
def ignoring : State := State.initial (fun _ => Disposition.ign)

/-! ## Auxiliary facts -/

theorem SigNums.ne (N : SigNums) :
    N.SIGABRT ≠ N.SIGINT ∧ N.SIGABRT ≠ N.SIGSEGV ∧ N.SIGABRT ≠ N.SIGTERM ∧
    N.SIGABRT ≠ N.SIGALRM ∧ N.SIGINT ≠ N.SIGSEGV ∧ N.SIGINT ≠ N.SIGTERM ∧
    N.SIGINT ≠ N.SIGALRM ∧ N.SIGSEGV ≠ N.SIGTERM ∧ N.SIGSEGV ≠ N.SIGALRM ∧
    N.SIGTERM ≠ N.SIGALRM := by
  have h := N.distinct
  simp only [List.nodup_cons, List.mem_cons, List.mem_singleton, not_or,
    List.not_mem_nil, not_false_eq_true, List.nodup_nil, and_true] at h
  tauto

@[simp] theorem SigNums.abrt_int (N : SigNums) : (N.SIGABRT = N.SIGINT) = False :=
  eq_false N.ne.1
@[simp] theorem SigNums.int_abrt (N : SigNums) : (N.SIGINT = N.SIGABRT) = False :=
  eq_false N.ne.1.symm
@[simp] theorem SigNums.abrt_segv (N : SigNums) : (N.SIGABRT = N.SIGSEGV) = False :=
  eq_false N.ne.2.1
@[simp] theorem SigNums.segv_abrt (N : SigNums) : (N.SIGSEGV = N.SIGABRT) = False :=
  eq_false N.ne.2.1.symm
@[simp] theorem SigNums.abrt_term (N : SigNums) : (N.SIGABRT = N.SIGTERM) = False :=
  eq_false N.ne.2.2.1
@[simp] theorem SigNums.term_abrt (N : SigNums) : (N.SIGTERM = N.SIGABRT) = False :=
  eq_false N.ne.2.2.1.symm
@[simp] theorem SigNums.abrt_alrm (N : SigNums) : (N.SIGABRT = N.SIGALRM) = False :=
  eq_false N.ne.2.2.2.1
@[simp] theorem SigNums.alrm_abrt (N : SigNums) : (N.SIGALRM = N.SIGABRT) = False :=
  eq_false N.ne.2.2.2.1.symm
@[simp] theorem SigNums.int_segv (N : SigNums) : (N.SIGINT = N.SIGSEGV) = False :=
  eq_false N.ne.2.2.2.2.1
@[simp] theorem SigNums.segv_int (N : SigNums) : (N.SIGSEGV = N.SIGINT) = False :=
  eq_false N.ne.2.2.2.2.1.symm
@[simp] theorem SigNums.int_term (N : SigNums) : (N.SIGINT = N.SIGTERM) = False :=
  eq_false N.ne.2.2.2.2.2.1
@[simp] theorem SigNums.term_int (N : SigNums) : (N.SIGTERM = N.SIGINT) = False :=
  eq_false N.ne.2.2.2.2.2.1.symm
@[simp] theorem SigNums.int_alrm (N : SigNums) : (N.SIGINT = N.SIGALRM) = False :=
  eq_false N.ne.2.2.2.2.2.2.1
@[simp] theorem SigNums.alrm_int (N : SigNums) : (N.SIGALRM = N.SIGINT) = False :=
  eq_false N.ne.2.2.2.2.2.2.1.symm
@[simp] theorem SigNums.segv_term (N : SigNums) : (N.SIGSEGV = N.SIGTERM) = False :=
  eq_false N.ne.2.2.2.2.2.2.2.1
@[simp] theorem SigNums.term_segv (N : SigNums) : (N.SIGTERM = N.SIGSEGV) = False :=
  eq_false N.ne.2.2.2.2.2.2.2.1.symm
@[simp] theorem SigNums.segv_alrm (N : SigNums) : (N.SIGSEGV = N.SIGALRM) = False :=
  eq_false N.ne.2.2.2.2.2.2.2.2.1
@[simp] theorem SigNums.alrm_segv (N : SigNums) : (N.SIGALRM = N.SIGSEGV) = False :=
  eq_false N.ne.2.2.2.2.2.2.2.2.1.symm
@[simp] theorem SigNums.term_alrm (N : SigNums) : (N.SIGTERM = N.SIGALRM) = False :=
  eq_false N.ne.2.2.2.2.2.2.2.2.2
@[simp] theorem SigNums.alrm_term (N : SigNums) : (N.SIGALRM = N.SIGTERM) = False :=
  eq_false N.ne.2.2.2.2.2.2.2.2.2.symm

theorem IsFatal.ne_alarm {N : SigNums} {sig : Int} (h : IsFatal N sig) :
    sig ≠ N.SIGALRM := by
  rcases h with h | h | h | h <;> simp [h]

theorem noInterception_initial (d : Int → Disposition)
    (hd : ∀ sig, d sig ≠ .trampoline) : NoInterception (State.initial d) := by
  simp [NoInterception, State.initial, hd]

/-- The disarming of lines 59-63 written as one record. -/
theorem reset_alarm_eq (N : SigNums) (s : State) :
    Signal.reset_alarm N s =
      if s.alarm_set then
        { s with os := Function.update s.os N.SIGALRM s.SIGALRM_handler,
                 SIGALRM_handler := .null, caught_alarm := false,
                 alarm_set := false, alarm_time := -1 }
      else s := by
  unfold Signal.reset_alarm
  cases s.alarm_set <;> simp [OS.signal]

/-- The state `reset` leaves, written as one record. -/
theorem reset_eq (N : SigNums) (s : State) :
    Signal.reset N s =
      { os := fun x =>
          if x = N.SIGALRM ∧ s.alarm_set = true then s.SIGALRM_handler
          else if IsFatal N x then fatal_slot N x s
          else s.os x,
        caught_signal := false,
        signal_handler := none,
        caught_alarm := if s.alarm_set then false else s.caught_alarm,
        alarm_set := false,
        alarm_time := if s.alarm_set then -1 else s.alarm_time,
        SIGABRT_handler := .null, SIGINT_handler := .null,
        SIGSEGV_handler := .null, SIGTERM_handler := .null,
        SIGALRM_handler := if s.alarm_set then .null else s.SIGALRM_handler,
        trace := s.trace } := by
  unfold Signal.reset
  simp only [reset_alarm_eq, OS.signal]
  cases hs : s.alarm_set <;> apply State.ext <;> simp [hs]
  all_goals
    funext x
    simp only [Function.update_apply, IsFatal, fatal_slot]
    split_ifs <;> simp_all

/-- The state `set` leaves, written as one record. -/
theorem set_eq (N : SigNums) (h : Option Handler) (s : State) :
    Signal.set N h s =
      { s with
        os := fun x => if IsFatal N x then .trampoline else s.os x,
        signal_handler := h,
        SIGABRT_handler := s.os N.SIGABRT, SIGINT_handler := s.os N.SIGINT,
        SIGSEGV_handler := s.os N.SIGSEGV, SIGTERM_handler := s.os N.SIGTERM } := by
  unfold Signal.set
  apply State.ext <;> simp [OS.signal, Function.update_apply]
  funext x
  simp only [Function.update_apply, IsFatal]
  split_ifs <;> simp_all

/-- The fatal branch for a handler whose bodies change nothing here. -/
theorem deliver_fatal (N : SigNums) (now : ℚ) (sig : Int) (s : State)
    (h : ¬ (sig = N.SIGALRM ∧ (s.alarm_time : ℚ) ≤ now)) :
    deliver N now sig s =
      OS.raise sig (Signal.reset N
        { s with caught_signal := true, trace := s.trace ++ fatal_report sig s }) := by
  unfold deliver catch_signal fatal_report
  rw [if_neg h]
  rcases s with ⟨os, cs, sh, ca, als, alt, s1, s2, s3, s4, s5, tr⟩
  cases cs <;> cases sh <;> simp [Handler.catch_signal, emit]

/-- The alarm branch for a handler whose bodies change nothing here. -/
theorem deliver_alarm (N : SigNums) (now : ℚ) (s : State)
    (h : (s.alarm_time : ℚ) ≤ now) :
    deliver N now N.SIGALRM s =
      Signal.reset_alarm N
        { s with caught_alarm := true, trace := s.trace ++ alarm_report N s } := by
  unfold deliver catch_signal alarm_report
  rw [if_pos ⟨rfl, h⟩]
  rcases s with ⟨os, cs, sh, ca, als, alt, s1, s2, s3, s4, s5, tr⟩
  cases ca <;> cases sh <;> simp [Handler.catch_alarm, Handler.catch_signal, emit]
  rename_i H
  cases H.overrides_catch_alarm <;> simp

/-- A fatal signal finds in its slot what the slots hold of a table `f`. -/
theorem fatal_slot_of_table (N : SigNums) (x : Int) (s : State) (f : Int → Disposition)
    (hx : IsFatal N x) (h1 : s.SIGABRT_handler = f N.SIGABRT)
    (h2 : s.SIGINT_handler = f N.SIGINT) (h3 : s.SIGSEGV_handler = f N.SIGSEGV)
    (h4 : s.SIGTERM_handler = f N.SIGTERM) : fatal_slot N x s = f x := by
  rcases hx with h | h | h | h <;> subst h <;> simp [fatal_slot, h1, h2, h3, h4]

/-- Installing on a state without interception and restoring gives the state
back. -/
theorem reset_set_of_noInterception (N : SigNums) (h : Option Handler) (s0 : State)
    (h0 : NoInterception s0) : Signal.reset N (Signal.set N h s0) = s0 := by
  rcases s0 with ⟨os, cs, sh, ca, als, alt, s1, s2, s3, s4, s5, tr⟩
  simp only [NoInterception] at h0
  obtain ⟨a1, a2, a3, a4, a5, a6, a7, a8, a9, a10, -⟩ := h0
  subst a1 a2 a3 a4 a5 a6 a7 a8 a9 a10
  rw [set_eq, reset_eq]
  apply State.ext <;> simp
  funext x
  by_cases hf : IsFatal N x
  · simp [hf, fatal_slot_of_table N x _ os hf]
  · simp [hf]

/-- The fatal branch after an installation on a state without interception:
the final state is the state before the installation with the callback and
the `raise` appended to the trace. -/
theorem deliver_fatal_after_set (N : SigNums) (s0 : State) (H : Handler)
    (now : ℚ) (sig : Int) (h0 : NoInterception s0)
    (hbranch : ¬ (sig = N.SIGALRM ∧
      ((Signal.set N (some H) s0).alarm_time : ℚ) ≤ now)) :
    deliver N now sig (Signal.set N (some H) s0) =
      { s0 with
        trace := s0.trace ++ [.catch_signal H sig, .raise sig (s0.os sig)] } := by
  rw [deliver_fatal N now sig _ hbranch]
  rcases s0 with ⟨os, cs, sh, ca, als, alt, s1, s2, s3, s4, s5, tr⟩
  simp only [NoInterception] at h0
  obtain ⟨a1, a2, a3, a4, a5, a6, a7, a8, a9, a10, -⟩ := h0
  subst a1 a2 a3 a4 a5 a6 a7 a8 a9 a10
  rw [set_eq, reset_eq]
  apply State.ext <;> simp [OS.raise, emit, fatal_report]
  · funext x
    by_cases hf : IsFatal N x
    · simp [hf, fatal_slot_of_table N x _ os hf]
    · simp [hf]
  · by_cases hf : IsFatal N sig
    · simp [hf, fatal_slot_of_table N sig _ os hf]
    · simp [hf]

theorem to_int_intCast (n : Int) : to_int (n : ℚ) = n := by
  unfold to_int
  split <;> simp

/-- Discarding the fraction does not increase a value that is not negative
or has no fraction. -/
theorem to_int_le (x : ℚ) (h : 0 ≤ x ∨ ∃ n : Int, x = n) : (to_int x : ℚ) ≤ x := by
  by_cases h0 : 0 ≤ x
  · simp only [to_int, if_pos h0]
    exact Int.floor_le x
  · rcases h with h | ⟨n, hn⟩
    · exact absurd h h0
    · rw [hn, to_int_intCast]

/-- The state in which `alarm` returns when its three assertions hold. -/
theorem alarm_returns (N : SigNums) (now : ℚ) (seconds : Int) (s : State)
    (hsec : 0 ≤ seconds) (hset : s.alarm_set = false) (htime : s.alarm_time < 0) :
    Signal.alarm N now seconds s = .returned
      { s with os := Function.update s.os N.SIGALRM .trampoline,
               SIGALRM_handler := s.os N.SIGALRM, alarm_set := true,
               alarm_time := to_int (now + seconds),
               trace := s.trace ++ [.alarm seconds] } := by
  simp [Signal.alarm, hsec, hset, htime, OS.signal, OS.alarm, emit]

/-- C1: after `Signal::set (H)` on a state without interception, a delivery
that does not take the alarm-timeout branch calls `H->catch_signal (sig)`
once with that `sig`, then leaves the state as `Signal::reset ()` leaves it,
which is the state before the installation, and last calls `raise (sig)`
once, at a moment when the disposition of `sig` is the one from before the
installation and not the trampoline. -/
theorem catch_signal_fatal_after_set (N : SigNums) (s0 : State) (H : Handler)
    (now : ℚ) (sig : Int) (h0 : NoInterception s0)
    (hbranch : ¬ (sig = N.SIGALRM ∧
      ((Signal.set N (some H) s0).alarm_time : ℚ) ≤ now)) :
    deliver N now sig (Signal.set N (some H) s0) =
      { Signal.reset N (Signal.set N (some H) s0) with
        trace := s0.trace ++ [.catch_signal H sig, .raise sig (s0.os sig)] } ∧
    Signal.reset N (Signal.set N (some H) s0) = s0 ∧
    s0.os sig ≠ .trampoline := by
  have hr := reset_set_of_noInterception N (some H) s0 h0
  refine ⟨?_, hr, h0.2.2.2.2.2.2.2.2.2.2 sig⟩
  rw [hr]
  exact deliver_fatal_after_set N s0 H now sig h0 hbranch

theorem catch_signal_fatal_after_set_witness :
    NoInterception ignoring ∧
    ¬ ((2 : Int) = linux.SIGALRM ∧
      ((Signal.set linux (some ⟨1, true⟩) ignoring).alarm_time : ℚ) ≤ 0) ∧
    (deliver linux 0 2 (Signal.set linux (some ⟨1, true⟩) ignoring) =
      { Signal.reset linux (Signal.set linux (some ⟨1, true⟩) ignoring) with
        trace := ignoring.trace ++
          [.catch_signal ⟨1, true⟩ 2, .raise 2 (ignoring.os 2)] } ∧
    Signal.reset linux (Signal.set linux (some ⟨1, true⟩) ignoring) = ignoring ∧
    ignoring.os 2 ≠ .trampoline) :=
  ⟨noInterception_initial _ (fun _ => by decide), by simp [linux],
   catch_signal_fatal_after_set linux ignoring ⟨1, true⟩ 0 2
    (noInterception_initial _ (fun _ => by decide)) (by simp [linux])⟩

/-- C2: after `Signal::set (H)` on a state without interception, two
deliveries of a fatal signal `sig` enter `H->catch_signal` once in total,
both when the second delivery follows the completed first one and when it
arrives while the first one is inside the callback.  In both cases the
outside calls are the callback, the first `raise` under the disposition from
before the installation and a second `raise`. -/
theorem catch_signal_twice_reports_once (N : SigNums) (s0 : State) (H : Handler)
    (now1 now2 : ℚ) (sig : Int) (h0 : NoInterception s0) (hsig : IsFatal N sig) :
    (deliver N now2 sig (deliver N now1 sig (Signal.set N (some H) s0))).trace =
      s0.trace ++ [.catch_signal H sig, .raise sig (s0.os sig), .raise sig .null] ∧
    catch_signal_calls H
        (deliver N now2 sig (deliver N now1 sig (Signal.set N (some H) s0))).trace =
      catch_signal_calls H s0.trace + 1 ∧
    (catch_signal N (deliver N now2 sig) now1 sig (Signal.set N (some H) s0)).trace =
      s0.trace ++ [.catch_signal H sig, .raise sig (s0.os sig), .raise sig .null] ∧
    catch_signal_calls H
        (catch_signal N (deliver N now2 sig) now1 sig (Signal.set N (some H) s0)).trace =
      catch_signal_calls H s0.trace + 1 := by
  have hne : sig ≠ N.SIGALRM := hsig.ne_alarm
  have hnb : ∀ (x : ℚ) (st : State), ¬ (sig = N.SIGALRM ∧ (st.alarm_time : ℚ) ≤ x) :=
    fun _ _ hc => hne hc.1
  have hfirst := deliver_fatal_after_set N s0 H now1 sig h0 (hnb _ _)
  have A : (deliver N now2 sig (deliver N now1 sig (Signal.set N (some H) s0))).trace =
      s0.trace ++ [.catch_signal H sig, .raise sig (s0.os sig), .raise sig .null] := by
    rw [hfirst, deliver_fatal N now2 sig _ (hnb _ _)]
    rcases s0 with ⟨os, cs, sh, ca, als, alt, s1, s2, s3, s4, s5, tr⟩
    simp only [NoInterception] at h0
    obtain ⟨a1, a2, a3, a4, a5, a6, a7, a8, a9, a10, -⟩ := h0
    subst a1 a2 a3 a4 a5 a6 a7 a8 a9 a10
    rw [reset_eq]
    simp [OS.raise, emit, fatal_report, hsig, hne,
      fatal_slot_of_table N sig _ (fun _ => Disposition.null) hsig]
  have B : (catch_signal N (deliver N now2 sig) now1 sig (Signal.set N (some H) s0)).trace =
      s0.trace ++ [.catch_signal H sig, .raise sig (s0.os sig), .raise sig .null] := by
    rcases s0 with ⟨os, cs, sh, ca, als, alt, s1, s2, s3, s4, s5, tr⟩
    simp only [NoInterception] at h0
    obtain ⟨a1, a2, a3, a4, a5, a6, a7, a8, a9, a10, -⟩ := h0
    subst a1 a2 a3 a4 a5 a6 a7 a8 a9 a10
    unfold catch_signal
    rw [if_neg (hnb _ _), set_eq]
    simp only [Bool.not_false, if_true, Handler.catch_signal, emit]
    rw [deliver_fatal N now2 sig _ (hnb _ _)]
    rw [reset_eq, reset_eq]
    simp [OS.raise, emit, fatal_report, hsig, hne,
      fatal_slot_of_table N sig _ (fun _ => Disposition.null) hsig,
      fatal_slot_of_table N sig _ os hsig]
  refine ⟨A, ?_, B, ?_⟩
  · rw [A]; simp [catch_signal_calls, List.countP_append, List.countP_cons]
  · rw [B]; simp [catch_signal_calls, List.countP_append, List.countP_cons]

theorem catch_signal_twice_reports_once_witness :
    NoInterception ignoring ∧ IsFatal linux 2 ∧
    ((deliver linux 7 2 (deliver linux 3 2 (Signal.set linux (some ⟨1, true⟩) ignoring))).trace =
      ignoring.trace ++ [.catch_signal ⟨1, true⟩ 2, .raise 2 (ignoring.os 2), .raise 2 .null] ∧
    catch_signal_calls ⟨1, true⟩
        (deliver linux 7 2 (deliver linux 3 2 (Signal.set linux (some ⟨1, true⟩) ignoring))).trace =
      catch_signal_calls ⟨1, true⟩ ignoring.trace + 1 ∧
    (catch_signal linux (deliver linux 7 2) 3 2 (Signal.set linux (some ⟨1, true⟩) ignoring)).trace =
      ignoring.trace ++ [.catch_signal ⟨1, true⟩ 2, .raise 2 (ignoring.os 2), .raise 2 .null] ∧
    catch_signal_calls ⟨1, true⟩
        (catch_signal linux (deliver linux 7 2) 3 2
          (Signal.set linux (some ⟨1, true⟩) ignoring)).trace =
      catch_signal_calls ⟨1, true⟩ ignoring.trace + 1) :=
  ⟨noInterception_initial _ (fun _ => by decide), by simp [IsFatal, linux],
   catch_signal_twice_reports_once linux ignoring ⟨1, true⟩ 3 7 2
    (noInterception_initial _ (fun _ => by decide)) (by simp [IsFatal, linux])⟩

/-- C3: from a state with no alarm armed (its slots and handler may hold
anything, in particular they may be empty), over any OS disposition table
`d`, `Signal::set (h)` makes the trampoline the disposition of the four
fatal signals and changes the disposition of no other signal, and stores the
entry of `d` for each of the four in its slot; `Signal::reset ()` after it
gives back the table `d` on every signal, clears the four slots and clears
the handler. -/
theorem set_reset_round_trip (N : SigNums) (d : Int → Disposition)
    (h : Option Handler) (s0 : State) (hd : s0.os = d) (ha : s0.alarm_set = false) :
    (∀ x, (Signal.set N h s0).os x = if IsFatal N x then .trampoline else d x) ∧
    (Signal.set N h s0).SIGABRT_handler = d N.SIGABRT ∧
    (Signal.set N h s0).SIGINT_handler = d N.SIGINT ∧
    (Signal.set N h s0).SIGSEGV_handler = d N.SIGSEGV ∧
    (Signal.set N h s0).SIGTERM_handler = d N.SIGTERM ∧
    (Signal.reset N (Signal.set N h s0)).os = d ∧
    (Signal.reset N (Signal.set N h s0)).SIGABRT_handler = .null ∧
    (Signal.reset N (Signal.set N h s0)).SIGINT_handler = .null ∧
    (Signal.reset N (Signal.set N h s0)).SIGSEGV_handler = .null ∧
    (Signal.reset N (Signal.set N h s0)).SIGTERM_handler = .null ∧
    (Signal.reset N (Signal.set N h s0)).signal_handler = none := by
  subst hd
  rw [reset_eq, set_eq]
  refine ⟨fun x => rfl, rfl, rfl, rfl, rfl, ?_, rfl, rfl, rfl, rfl, rfl⟩
  funext x
  by_cases hf : IsFatal N x
  · simp [ha, hf, fatal_slot_of_table N x _ s0.os hf]
  · simp [ha, hf]

theorem set_reset_round_trip_witness :
    (∀ x, (Signal.set linux (some ⟨1, true⟩) ignoring).os x =
      if IsFatal linux x then .trampoline else Disposition.ign) ∧
    (Signal.set linux (some ⟨1, true⟩) ignoring).SIGABRT_handler = Disposition.ign ∧
    (Signal.set linux (some ⟨1, true⟩) ignoring).SIGINT_handler = Disposition.ign ∧
    (Signal.set linux (some ⟨1, true⟩) ignoring).SIGSEGV_handler = Disposition.ign ∧
    (Signal.set linux (some ⟨1, true⟩) ignoring).SIGTERM_handler = Disposition.ign ∧
    (Signal.reset linux (Signal.set linux (some ⟨1, true⟩) ignoring)).os =
      (fun _ => Disposition.ign) ∧
    (Signal.reset linux (Signal.set linux (some ⟨1, true⟩) ignoring)).SIGABRT_handler = .null ∧
    (Signal.reset linux (Signal.set linux (some ⟨1, true⟩) ignoring)).SIGINT_handler = .null ∧
    (Signal.reset linux (Signal.set linux (some ⟨1, true⟩) ignoring)).SIGSEGV_handler = .null ∧
    (Signal.reset linux (Signal.set linux (some ⟨1, true⟩) ignoring)).SIGTERM_handler = .null ∧
    (Signal.reset linux (Signal.set linux (some ⟨1, true⟩) ignoring)).signal_handler = none :=
  set_reset_round_trip linux (fun _ => Disposition.ign) (some ⟨1, true⟩) ignoring rfl rfl

/-- C4: `Signal::reset ()` is not idempotent.  With `SIGINT` ignored before
`Signal::set`, the first `reset` puts the ignoring disposition back and the
second `reset` replaces it by the null (default) disposition, because the
cleared slot is installed again. -/
theorem reset_twice_changes_disposition :
    (Signal.set linux (some ⟨1, true⟩) ignoring).os linux.SIGINT = .trampoline ∧
    (Signal.reset linux (Signal.set linux (some ⟨1, true⟩) ignoring)).os linux.SIGINT =
      .ign ∧
    (Signal.reset linux
      (Signal.reset linux (Signal.set linux (some ⟨1, true⟩) ignoring))).os linux.SIGINT =
      .null ∧
    Signal.reset linux (Signal.reset linux (Signal.set linux (some ⟨1, true⟩) ignoring)) ≠
      Signal.reset linux (Signal.set linux (some ⟨1, true⟩) ignoring) := by
  have h1 : (Signal.reset linux (Signal.set linux (some ⟨1, true⟩) ignoring)).os
      linux.SIGINT = .ign := by decide
  have h2 : (Signal.reset linux
      (Signal.reset linux (Signal.set linux (some ⟨1, true⟩) ignoring))).os linux.SIGINT =
      .null := by decide
  refine ⟨by decide, h1, h2, fun hc => ?_⟩
  rw [hc, h1] at h2
  exact absurd h2 (by decide)

/-- C6 fails on the code in two ways.  A handler that keeps the default
`catch_alarm` gets its `catch_signal (SIGALRM)` called at the timeout; and
at the negative clock value `-1/2` the deadline of `alarm (0)` is stored as
`0`, so the delivery at clock value `-1/2 + 0` takes the fatal branch. -/
theorem alarm_timeout_counterexample :
    (deliver linux (0 + ((5 : Int) : ℚ)) linux.SIGALRM
      (Signal.alarm linux 0 5
        (Signal.set linux (some ⟨1, false⟩) ignoring)).state).trace =
      [.alarm 5, .catch_alarm ⟨1, false⟩, .catch_signal ⟨1, false⟩ 14] ∧
    (Signal.alarm linux (-1 / 2) 0
        (Signal.set linux (some ⟨1, true⟩) ignoring)).state.alarm_time = 0 ∧
    (deliver linux (-1 / 2 + ((0 : Int) : ℚ)) linux.SIGALRM
      (Signal.alarm linux (-1 / 2) 0
        (Signal.set linux (some ⟨1, true⟩) ignoring)).state).trace =
      [.alarm 0, .catch_signal ⟨1, true⟩ 14, .raise 14 .ign] := by
  have t1 : to_int (-1 / 2 : ℚ) = 0 := by
    unfold to_int
    rw [if_neg (by norm_num), Int.ceil_eq_iff]
    norm_num
  refine ⟨?_, ?_, ?_⟩
  · rw [deliver_alarm linux _ _ (by
      have := to_int_le ((0 : ℚ) + ((5 : Int) : ℚ)) (Or.inl (by norm_num))
      simpa [Signal.alarm, Outcome.state, OS.signal, OS.alarm, emit, set_eq, ignoring,
        State.initial] using this)]
    simp [reset_alarm_eq, alarm_report, Signal.alarm, Outcome.state, OS.signal, OS.alarm, emit,
      set_eq, ignoring, State.initial, linux]
  · simp [Signal.alarm, Outcome.state, OS.signal, OS.alarm, emit, set_eq, ignoring,
      State.initial, t1]
  · rw [deliver_fatal linux _ _ _ (by
      simp [Signal.alarm, Outcome.state, OS.signal, OS.alarm, emit, set_eq, ignoring,
        State.initial, t1]
      norm_num)]
    simp [reset_eq, fatal_report, fatal_slot, Signal.alarm, Outcome.state, OS.signal, OS.alarm,
      OS.raise, emit, set_eq, ignoring, State.initial, linux]

/-- C6, amended: with a handler `H` active, no alarm armed and
`caught_alarm` false, for `seconds >= 0` and a clock value `now` such that
`now + seconds` is not negative or is an integer, `Signal::alarm (seconds)`
at `now` returns, and the delivery of `SIGALRM` at `now + seconds` calls
`H->catch_alarm` once, calls no `raise`, and leaves the state as before
arming except for the cleared `SIGALRM` slot and the deadline `-1`.
`H->catch_signal` is not called when `H` overrides `catch_alarm`; the
default `catch_alarm` calls `H->catch_signal (SIGALRM)` once. -/
theorem alarm_then_timeout (N : SigNums) (s : State) (H : Handler) (now : ℚ)
    (seconds : Int) (hsec : 0 ≤ seconds)
    (hnow : 0 ≤ now + seconds ∨ ∃ n : Int, now + seconds = n)
    (hH : s.signal_handler = some H) (hset : s.alarm_set = false)
    (htime : s.alarm_time < 0) (hca : s.caught_alarm = false) :
    (Signal.alarm N now seconds s).failed = false ∧
    deliver N (now + seconds) N.SIGALRM (Signal.alarm N now seconds s).state =
      { s with
        SIGALRM_handler := .null, alarm_time := -1,
        trace := s.trace ++ ([.alarm seconds, .catch_alarm H] ++
          if H.overrides_catch_alarm then [] else [.catch_signal H N.SIGALRM]) } ∧
    catch_alarm_calls H (deliver N (now + seconds) N.SIGALRM
      (Signal.alarm N now seconds s).state).trace = catch_alarm_calls H s.trace + 1 ∧
    raise_calls (deliver N (now + seconds) N.SIGALRM
      (Signal.alarm N now seconds s).state).trace = raise_calls s.trace ∧
    catch_signal_calls H (deliver N (now + seconds) N.SIGALRM
      (Signal.alarm N now seconds s).state).trace =
      catch_signal_calls H s.trace + if H.overrides_catch_alarm then 0 else 1 := by
  have hle := to_int_le (now + seconds) hnow
  have hal := alarm_returns N now seconds s hsec hset htime
  have hmain : deliver N (now + seconds) N.SIGALRM (Signal.alarm N now seconds s).state =
      { s with
        SIGALRM_handler := .null, alarm_time := -1,
        trace := s.trace ++ ([.alarm seconds, .catch_alarm H] ++
          if H.overrides_catch_alarm then [] else [.catch_signal H N.SIGALRM]) } := by
    rw [hal]
    simp only [Outcome.state]
    rw [deliver_alarm N _ _ hle, reset_alarm_eq]
    rcases s with ⟨os, cs, sh, ca, als, alt, s1, s2, s3, s4, s5, tr⟩
    simp only at hH hset hca
    subst hH hset hca
    cases ho : H.overrides_catch_alarm <;> simp [alarm_report, ho]
  refine ⟨by rw [hal]; rfl, hmain, ?_, ?_, ?_⟩ <;> rw [hmain] <;>
    cases ho : H.overrides_catch_alarm <;>
    simp [catch_alarm_calls, raise_calls, catch_signal_calls, List.countP_append,
      List.countP_cons]

theorem alarm_then_timeout_witness :
    (0 : Int) ≤ 5 ∧ ((0 : ℚ) ≤ 3 + ((5 : Int) : ℚ) ∨ ∃ n : Int, (3 : ℚ) + ((5 : Int) : ℚ) = n) ∧
    (Signal.set linux (some ⟨1, true⟩) ignoring).signal_handler = some ⟨1, true⟩ ∧
    (Signal.set linux (some ⟨1, true⟩) ignoring).alarm_set = false ∧
    (Signal.set linux (some ⟨1, true⟩) ignoring).alarm_time < 0 ∧
    (Signal.set linux (some ⟨1, true⟩) ignoring).caught_alarm = false ∧
    ((Signal.alarm linux 3 5 (Signal.set linux (some ⟨1, true⟩) ignoring)).failed = false ∧
    deliver linux (3 + ((5 : Int) : ℚ)) linux.SIGALRM
        (Signal.alarm linux 3 5 (Signal.set linux (some ⟨1, true⟩) ignoring)).state =
      { Signal.set linux (some ⟨1, true⟩) ignoring with
        SIGALRM_handler := .null, alarm_time := -1,
        trace := (Signal.set linux (some ⟨1, true⟩) ignoring).trace ++
          ([.alarm 5, .catch_alarm ⟨1, true⟩] ++
          if (⟨1, true⟩ : Handler).overrides_catch_alarm then []
          else [.catch_signal ⟨1, true⟩ linux.SIGALRM]) } ∧
    catch_alarm_calls ⟨1, true⟩ (deliver linux (3 + ((5 : Int) : ℚ)) linux.SIGALRM
      (Signal.alarm linux 3 5 (Signal.set linux (some ⟨1, true⟩) ignoring)).state).trace =
      catch_alarm_calls ⟨1, true⟩ (Signal.set linux (some ⟨1, true⟩) ignoring).trace + 1 ∧
    raise_calls (deliver linux (3 + ((5 : Int) : ℚ)) linux.SIGALRM
      (Signal.alarm linux 3 5 (Signal.set linux (some ⟨1, true⟩) ignoring)).state).trace =
      raise_calls (Signal.set linux (some ⟨1, true⟩) ignoring).trace ∧
    catch_signal_calls ⟨1, true⟩ (deliver linux (3 + ((5 : Int) : ℚ)) linux.SIGALRM
      (Signal.alarm linux 3 5 (Signal.set linux (some ⟨1, true⟩) ignoring)).state).trace =
      catch_signal_calls ⟨1, true⟩ (Signal.set linux (some ⟨1, true⟩) ignoring).trace +
        if (⟨1, true⟩ : Handler).overrides_catch_alarm then 0 else 1) :=
  ⟨by decide, Or.inl (by norm_num), rfl, rfl, by decide, rfl,
   alarm_then_timeout linux (Signal.set linux (some ⟨1, true⟩) ignoring) ⟨1, true⟩ 3 5
    (by decide) (Or.inl (by norm_num)) rfl rfl (by decide) rfl⟩

/-- C8: `Signal::name` gives each of the five signal numbers its own label
and every other integer the label `UNKNOWN`; comparing with the five
numbers in any other order gives the same label.  The function takes no
state and returns none, so it changes none. -/
theorem name_total_exact (N : SigNums) :
    Signal.name N N.SIGABRT = "SIGABRT" ∧ Signal.name N N.SIGINT = "SIGINT" ∧
    Signal.name N N.SIGSEGV = "SIGSEGV" ∧ Signal.name N N.SIGTERM = "SIGTERM" ∧
    Signal.name N N.SIGALRM = "SIGALRM" ∧
    (∀ sig, ¬ IsMonitored N sig → Signal.name N sig = "UNKNOWN") ∧
    (∀ sig, Signal.name N sig = "UNKNOWN" → ¬ IsMonitored N sig) ∧
    ∀ l : List (Int × String), l.Perm (labels N) →
      ∀ sig, lookup_label l sig = Signal.name N sig := by
  refine ⟨by simp [Signal.name], by simp [Signal.name], by simp [Signal.name],
    by simp [Signal.name], by simp [Signal.name], ?_, ?_, ?_⟩
  · intro sig hsig
    simp only [IsMonitored, IsFatal, not_or] at hsig
    obtain ⟨⟨h1, h2, h3, h4⟩, h5⟩ := hsig
    simp [Signal.name, h1, h2, h3, h4, h5]
  · intro sig hname hmon
    rcases hmon with (h | h | h | h) | h <;> subst h <;> simp [Signal.name] at hname
  · intro l hl sig
    unfold lookup_label
    cases hf : l.find? (fun p => decide (sig = p.1)) with
    | none =>
      rw [List.find?_eq_none] at hf
      have hall : ∀ p ∈ labels N, sig ≠ p.1 := fun p hp => by
        simpa using hf p (hl.mem_iff.mpr hp)
      simp only [labels, List.mem_cons, List.mem_singleton, List.not_mem_nil, or_false,
        forall_eq_or_imp, forall_eq] at hall
      obtain ⟨h1, h2, h3, h4, h5⟩ := hall
      simp [Signal.name, h1, h2, h3, h4, h5]
    | some p =>
      have hp : p ∈ labels N := hl.mem_iff.mp (List.mem_of_find?_eq_some hf)
      have hk : sig = p.1 := by simpa using List.find?_some hf
      simp only [labels, List.mem_cons, List.mem_singleton, List.not_mem_nil, or_false] at hp
      rcases hp with h | h | h | h | h <;> subst h <;> subst hk <;> simp [Signal.name]

/-- C8 at the Linux numbers: comparing in the reverse order finds the label
of `SIGALRM`. -/
theorem name_total_exact_witness :
    lookup_label (labels linux).reverse 14 = Signal.name linux 14 :=
  (name_total_exact linux).2.2.2.2.2.2.2 (labels linux).reverse
    (List.reverse_perm (labels linux)) 14

/-- C9: without an armed alarm `Signal::reset_alarm ()` returns the state
unchanged.  With an armed alarm it installs the saved `SIGALRM` disposition,
clears that slot, `caught_alarm`, `alarm_set`, sets the deadline to `-1` and
changes nothing else: not the disposition of any other signal, not the four
fatal slots, the handler, `caught_signal` or the trace.  Applied twice it
gives what it gives applied once. -/
theorem reset_alarm_post (N : SigNums) (s : State) :
    (s.alarm_set = false → Signal.reset_alarm N s = s) ∧
    (s.alarm_set = true →
      (Signal.reset_alarm N s).os N.SIGALRM = s.SIGALRM_handler ∧
      (Signal.reset_alarm N s).SIGALRM_handler = .null ∧
      (Signal.reset_alarm N s).caught_alarm = false ∧
      (Signal.reset_alarm N s).alarm_set = false ∧
      (Signal.reset_alarm N s).alarm_time = -1 ∧
      (∀ x, x ≠ N.SIGALRM → (Signal.reset_alarm N s).os x = s.os x) ∧
      (∀ x, IsFatal N x → (Signal.reset_alarm N s).os x = s.os x) ∧
      (Signal.reset_alarm N s).SIGABRT_handler = s.SIGABRT_handler ∧
      (Signal.reset_alarm N s).SIGINT_handler = s.SIGINT_handler ∧
      (Signal.reset_alarm N s).SIGSEGV_handler = s.SIGSEGV_handler ∧
      (Signal.reset_alarm N s).SIGTERM_handler = s.SIGTERM_handler ∧
      (Signal.reset_alarm N s).signal_handler = s.signal_handler ∧
      (Signal.reset_alarm N s).caught_signal = s.caught_signal ∧
      (Signal.reset_alarm N s).trace = s.trace) ∧
    Signal.reset_alarm N (Signal.reset_alarm N s) = Signal.reset_alarm N s := by
  refine ⟨fun h => by simp [reset_alarm_eq, h], fun h => ?_, ?_⟩
  · have hne : ∀ x, x ≠ N.SIGALRM → (Signal.reset_alarm N s).os x = s.os x := fun x hx => by
      simp [reset_alarm_eq, h, Function.update_apply, hx]
    refine ⟨by simp [reset_alarm_eq, h], by simp [reset_alarm_eq, h],
      by simp [reset_alarm_eq, h], by simp [reset_alarm_eq, h], by simp [reset_alarm_eq, h],
      hne, fun x hx => hne x hx.ne_alarm, by simp [reset_alarm_eq, h],
      by simp [reset_alarm_eq, h], by simp [reset_alarm_eq, h], by simp [reset_alarm_eq, h],
      by simp [reset_alarm_eq, h], by simp [reset_alarm_eq, h], by simp [reset_alarm_eq, h]⟩
  · cases h : s.alarm_set <;> simp [reset_alarm_eq, h]

/-- C9 at an armed alarm: the state after `set` and `alarm (5)` at clock
value `3`. -/
theorem reset_alarm_post_witness :
    (Signal.alarm linux 3 5 (Signal.set linux (some ⟨1, true⟩) ignoring)).state.alarm_set =
      true ∧
    (Signal.reset_alarm linux
      (Signal.alarm linux 3 5 (Signal.set linux (some ⟨1, true⟩) ignoring)).state).os
        linux.SIGALRM = .ign ∧
    (Signal.reset_alarm linux
      (Signal.alarm linux 3 5 (Signal.set linux (some ⟨1, true⟩) ignoring)).state).alarm_time =
      -1 := by
  have hret := alarm_returns linux 3 5 (Signal.set linux (some ⟨1, true⟩) ignoring)
    (by decide) rfl (by decide)
  have harmed : (Signal.alarm linux 3 5
      (Signal.set linux (some ⟨1, true⟩) ignoring)).state.alarm_set = true := by
    rw [hret]; rfl
  have hpost := (reset_alarm_post linux
    (Signal.alarm linux 3 5 (Signal.set linux (some ⟨1, true⟩) ignoring)).state).2.1 harmed
  refine ⟨harmed, ?_, hpost.2.2.2.2.1⟩
  rw [hpost.1, hret]
  simp [Outcome.state, set_eq, ignoring, State.initial]

/-- C10: `Signal::alarm (seconds)` ends in an assertion failure exactly when
`seconds < 0`, or `alarm_set` is true, or the stored deadline is at least
`0`; the state at the failure is the state of the call.  Otherwise it
returns with `alarm_set` true, the trampoline installed for `SIGALRM`, the
former disposition of `SIGALRM` in its slot, one call of `::alarm` with
exactly `seconds`, and nothing else changed but the deadline. -/
theorem alarm_fails_iff (N : SigNums) (now : ℚ) (seconds : Int) (s : State) :
    ((Signal.alarm N now seconds s).failed = true ↔
      (seconds < 0 ∨ s.alarm_set = true ∨ 0 ≤ s.alarm_time)) ∧
    ((Signal.alarm N now seconds s).failed = true →
      (Signal.alarm N now seconds s).state = s) ∧
    ((Signal.alarm N now seconds s).failed = false →
      (Signal.alarm N now seconds s).state.alarm_set = true ∧
      (Signal.alarm N now seconds s).state.os N.SIGALRM = .trampoline ∧
      (Signal.alarm N now seconds s).state.SIGALRM_handler = s.os N.SIGALRM ∧
      (Signal.alarm N now seconds s).state.trace = s.trace ++ [.alarm seconds] ∧
      (Signal.alarm N now seconds s).state.alarm_time = to_int (now + seconds) ∧
      (∀ x, x ≠ N.SIGALRM → (Signal.alarm N now seconds s).state.os x = s.os x) ∧
      (Signal.alarm N now seconds s).state.SIGABRT_handler = s.SIGABRT_handler ∧
      (Signal.alarm N now seconds s).state.SIGINT_handler = s.SIGINT_handler ∧
      (Signal.alarm N now seconds s).state.SIGSEGV_handler = s.SIGSEGV_handler ∧
      (Signal.alarm N now seconds s).state.SIGTERM_handler = s.SIGTERM_handler ∧
      (Signal.alarm N now seconds s).state.signal_handler = s.signal_handler ∧
      (Signal.alarm N now seconds s).state.caught_signal = s.caught_signal ∧
      (Signal.alarm N now seconds s).state.caught_alarm = s.caught_alarm) := by
  by_cases h1 : 0 ≤ seconds
  · by_cases h2 : s.alarm_set = false
    · by_cases h3 : s.alarm_time < 0
      · rw [alarm_returns N now seconds s h1 h2 h3]
        refine ⟨?_, ?_, fun _ => ?_⟩
        · simp only [Outcome.failed, Bool.false_eq_true, false_iff, not_or]
          exact ⟨not_lt.mpr h1, by simp [h2], not_le.mpr h3⟩
        · intro h; simp [Outcome.failed] at h
        · refine ⟨rfl, by simp [Outcome.state], rfl, rfl, rfl, ?_, rfl, rfl, rfl, rfl, rfl,
            rfl, rfl⟩
          intro x hx
          simp [Outcome.state, Function.update_apply, hx]
      · have e : Signal.alarm N now seconds s = .assertion_failed "alarm_time < 0" s := by
          simp [Signal.alarm, h1, h2, h3]
        rw [e]
        exact ⟨⟨fun _ => Or.inr (Or.inr (not_lt.mp h3)), fun _ => rfl⟩, fun _ => rfl,
          fun h => by simp [Outcome.failed] at h⟩
    · have e : Signal.alarm N now seconds s = .assertion_failed "!alarm_set" s := by
        simp [Signal.alarm, h1, h2]
      rw [e]
      exact ⟨⟨fun _ => Or.inr (Or.inl (by simpa using h2)), fun _ => rfl⟩, fun _ => rfl,
        fun h => by simp [Outcome.failed] at h⟩
  · have e : Signal.alarm N now seconds s = .assertion_failed "seconds >= 0" s := by
      simp [Signal.alarm, h1]
    rw [e]
    exact ⟨⟨fun _ => Or.inl (not_le.mp h1), fun _ => rfl⟩, fun _ => rfl,
      fun h => by simp [Outcome.failed] at h⟩

/-- C10 at a second `alarm` while one is armed: the call fails and the
state is the one of the call. -/
theorem alarm_fails_iff_witness :
    (Signal.alarm linux 4 1
      (Signal.alarm linux 3 5 (Signal.set linux (some ⟨1, true⟩) ignoring)).state).failed =
      true ∧
    (Signal.alarm linux 4 1
      (Signal.alarm linux 3 5 (Signal.set linux (some ⟨1, true⟩) ignoring)).state).state =
      (Signal.alarm linux 3 5 (Signal.set linux (some ⟨1, true⟩) ignoring)).state := by
  have hret := alarm_returns linux 3 5 (Signal.set linux (some ⟨1, true⟩) ignoring)
    (by decide) rfl (by decide)
  have hthm := alarm_fails_iff linux 4 1
    (Signal.alarm linux 3 5 (Signal.set linux (some ⟨1, true⟩) ignoring)).state
  have hfail : (Signal.alarm linux 4 1
      (Signal.alarm linux 3 5 (Signal.set linux (some ⟨1, true⟩) ignoring)).state).failed =
      true := hthm.1.mpr (Or.inr (Or.inl (by rw [hret]; rfl)))
  exact ⟨hfail, hthm.2.1 hfail⟩

/-- C11 fails on the code for a handler that keeps the default
`catch_alarm`: with an alarm armed by `alarm (5)` at clock value `0`, the
delivery of `SIGALRM` at clock value `5` takes the alarm branch, and the
default body of `catch_alarm` calls `catch_signal (SIGALRM)` of the
handler. -/
theorem alarm_branch_counterexample :
    (Signal.alarm linux 0 5
      (Signal.set linux (some ⟨1, false⟩) ignoring)).state.alarm_set = true ∧
    (((Signal.alarm linux 0 5
      (Signal.set linux (some ⟨1, false⟩) ignoring)).state.alarm_time : Int) : ℚ) ≤ 5 ∧
    catch_signal_calls ⟨1, false⟩ (Signal.alarm linux 0 5
      (Signal.set linux (some ⟨1, false⟩) ignoring)).state.trace = 0 ∧
    (deliver linux 5 linux.SIGALRM (Signal.alarm linux 0 5
      (Signal.set linux (some ⟨1, false⟩) ignoring)).state).trace =
      [.alarm 5, .catch_alarm ⟨1, false⟩, .catch_signal ⟨1, false⟩ 14] ∧
    catch_signal_calls ⟨1, false⟩ (deliver linux 5 linux.SIGALRM (Signal.alarm linux 0 5
      (Signal.set linux (some ⟨1, false⟩) ignoring)).state).trace = 1 := by
  have t1 : to_int ((0 : ℚ) + ((5 : Int) : ℚ)) = 5 := by
    rw [zero_add, to_int_intCast]
  have hret := alarm_returns linux 0 5 (Signal.set linux (some ⟨1, false⟩) ignoring)
    (by decide) rfl (by decide)
  have hle : (((Signal.alarm linux 0 5
      (Signal.set linux (some ⟨1, false⟩) ignoring)).state.alarm_time : Int) : ℚ) ≤ 5 := by
    rw [hret]
    simp only [Outcome.state, t1]
    norm_num
  have htr : (deliver linux 5 linux.SIGALRM (Signal.alarm linux 0 5
      (Signal.set linux (some ⟨1, false⟩) ignoring)).state).trace =
      [.alarm 5, .catch_alarm ⟨1, false⟩, .catch_signal ⟨1, false⟩ 14] := by
    rw [deliver_alarm linux _ _ hle, hret]
    simp [reset_alarm_eq, alarm_report, Outcome.state, set_eq, ignoring, State.initial, linux]
  refine ⟨by rw [hret]; rfl, hle, ?_, htr, ?_⟩
  · rw [hret]
    simp [Outcome.state, set_eq, ignoring, State.initial, catch_signal_calls]
  · rw [htr]
    simp [catch_signal_calls, List.countP_cons]

/-- C11, amended: with an alarm armed, a delivery of `SIGALRM` at or after
the stored deadline calls no `raise` and leaves the handler, `caught_signal`,
the four fatal slots and the dispositions of the four fatal signals
unchanged.  The only outside calls are those of the alarm report.  No
`catch_signal` of any handler is called when no report is made or the
active handler overrides `catch_alarm`; when the report goes to a handler
`H` that keeps the default `catch_alarm`, that default calls
`H->catch_signal (SIGALRM)` once. -/
theorem alarm_branch_frame (N : SigNums) (s : State) (now : ℚ)
    (harmed : s.alarm_set = true) (hnow : (s.alarm_time : ℚ) ≤ now) :
    (deliver N now N.SIGALRM s).trace = s.trace ++ alarm_report N s ∧
    raise_calls (deliver N now N.SIGALRM s).trace = raise_calls s.trace ∧
    ((s.caught_alarm = true ∨ s.signal_handler = none ∨
        ∃ H, s.signal_handler = some H ∧ H.overrides_catch_alarm = true) →
      ∀ g, catch_signal_calls g (deliver N now N.SIGALRM s).trace =
        catch_signal_calls g s.trace) ∧
    (∀ H, s.caught_alarm = false → s.signal_handler = some H →
      H.overrides_catch_alarm = false →
      (deliver N now N.SIGALRM s).trace =
        s.trace ++ [.catch_alarm H, .catch_signal H N.SIGALRM] ∧
      catch_signal_calls H (deliver N now N.SIGALRM s).trace =
        catch_signal_calls H s.trace + 1) ∧
    (deliver N now N.SIGALRM s).signal_handler = s.signal_handler ∧
    (deliver N now N.SIGALRM s).caught_signal = s.caught_signal ∧
    (deliver N now N.SIGALRM s).SIGABRT_handler = s.SIGABRT_handler ∧
    (deliver N now N.SIGALRM s).SIGINT_handler = s.SIGINT_handler ∧
    (deliver N now N.SIGALRM s).SIGSEGV_handler = s.SIGSEGV_handler ∧
    (deliver N now N.SIGALRM s).SIGTERM_handler = s.SIGTERM_handler ∧
    (∀ x, IsFatal N x → (deliver N now N.SIGALRM s).os x = s.os x) := by
  have htr : (deliver N now N.SIGALRM s).trace = s.trace ++ alarm_report N s := by
    rw [deliver_alarm N now s hnow, reset_alarm_eq]
    simp [harmed]
  refine ⟨htr, ?_, ?_, ?_, ?_, ?_, ?_, ?_, ?_, ?_, ?_⟩
  · rw [htr]
    unfold alarm_report raise_calls
    cases s.caught_alarm <;> cases s.signal_handler <;> simp [List.countP_append]
    split <;> simp [List.countP_cons]
  · intro hcase g
    rw [htr]
    unfold alarm_report catch_signal_calls
    rcases hcase with h | h | ⟨H, h, ho⟩
    · simp [h]
    · cases s.caught_alarm <;> simp [h]
    · cases s.caught_alarm <;> simp [h, ho, List.countP_append, List.countP_cons]
  · intro H hca hH ho
    have hrep : alarm_report N s = [.catch_alarm H, .catch_signal H N.SIGALRM] := by
      simp [alarm_report, hca, hH, ho]
    rw [htr, hrep]
    exact ⟨rfl, by simp [catch_signal_calls, List.countP_append, List.countP_cons]⟩
  all_goals rw [deliver_alarm N now s hnow, reset_alarm_eq]
  all_goals simp only [harmed, if_true]
  intro x hx
  simp [Function.update_apply, hx.ne_alarm]

theorem alarm_branch_frame_witness :
    (Signal.alarm linux 3 5
      (Signal.set linux (some ⟨1, true⟩) ignoring)).state.alarm_set = true ∧
    (((Signal.alarm linux 3 5
      (Signal.set linux (some ⟨1, true⟩) ignoring)).state.alarm_time : Int) : ℚ) ≤ 9 ∧
    raise_calls (deliver linux 9 linux.SIGALRM (Signal.alarm linux 3 5
      (Signal.set linux (some ⟨1, true⟩) ignoring)).state).trace =
      raise_calls (Signal.alarm linux 3 5
        (Signal.set linux (some ⟨1, true⟩) ignoring)).state.trace ∧
    (deliver linux 9 linux.SIGALRM (Signal.alarm linux 3 5
      (Signal.set linux (some ⟨1, true⟩) ignoring)).state).signal_handler =
      (Signal.alarm linux 3 5
        (Signal.set linux (some ⟨1, true⟩) ignoring)).state.signal_handler := by
  have t1 : to_int ((3 : ℚ) + ((5 : Int) : ℚ)) = 8 := by
    have e : (3 : ℚ) + ((5 : Int) : ℚ) = ((8 : Int) : ℚ) := by norm_num
    rw [e, to_int_intCast]
  have hret := alarm_returns linux 3 5 (Signal.set linux (some ⟨1, true⟩) ignoring)
    (by decide) rfl (by decide)
  have harmed : (Signal.alarm linux 3 5
      (Signal.set linux (some ⟨1, true⟩) ignoring)).state.alarm_set = true := by
    rw [hret]; rfl
  have hle : (((Signal.alarm linux 3 5
      (Signal.set linux (some ⟨1, true⟩) ignoring)).state.alarm_time : Int) : ℚ) ≤ 9 := by
    rw [hret]
    simp only [Outcome.state, t1]
    norm_num
  have hthm := alarm_branch_frame linux (Signal.alarm linux 3 5
    (Signal.set linux (some ⟨1, true⟩) ignoring)).state 9 harmed hle
  exact ⟨harmed, hle, hthm.2.1, hthm.2.2.2.2.1⟩

/-- C13: with no alarm armed and the deadline at `-1`, `SIGALRM` delivered
to the trampoline at any clock value of at least `-1` takes the alarm
branch.  The state changes in `caught_alarm`, which becomes true, and in the
trace, which gains the alarm report (the call of `catch_alarm` of the active
handler when `caught_alarm` was false) and no `raise`; no disposition and no
slot changes.  `caught_alarm` is still true after a following
`Signal::reset ()`. -/
theorem unarmed_alarm_is_timeout (N : SigNums) (s : State) (now : ℚ)
    (hset : s.alarm_set = false) (htime : s.alarm_time = -1) (hnow : -1 ≤ now) :
    deliver N now N.SIGALRM s =
      { s with caught_alarm := true, trace := s.trace ++ alarm_report N s } ∧
    (∀ H, s.signal_handler = some H → s.caught_alarm = false →
      catch_alarm_calls H (deliver N now N.SIGALRM s).trace =
        catch_alarm_calls H s.trace + 1) ∧
    ((s.signal_handler = none ∨ s.caught_alarm = true) →
      (deliver N now N.SIGALRM s).trace = s.trace) ∧
    raise_calls (deliver N now N.SIGALRM s).trace = raise_calls s.trace ∧
    (deliver N now N.SIGALRM s).caught_alarm = true ∧
    (Signal.reset N (deliver N now N.SIGALRM s)).caught_alarm = true := by
  have hle : ((s.alarm_time : Int) : ℚ) ≤ now := by
    rw [htime]; simpa using hnow
  have hmain : deliver N now N.SIGALRM s =
      { s with caught_alarm := true, trace := s.trace ++ alarm_report N s } := by
    rw [deliver_alarm N now s hle, reset_alarm_eq]
    simp [hset]
  refine ⟨hmain, ?_, ?_, ?_, ?_, ?_⟩
  · intro H hH hca
    rw [hmain]
    cases ho : H.overrides_catch_alarm <;>
      simp [alarm_report, hH, hca, ho, catch_alarm_calls, List.countP_append,
        List.countP_cons]
  · intro hcase
    rw [hmain]
    rcases hcase with h | h
    · cases hc : s.caught_alarm <;> simp [alarm_report, h, hc]
    · simp [alarm_report, h]
  · rw [hmain]
    unfold alarm_report raise_calls
    cases s.caught_alarm <;> cases s.signal_handler <;> simp [List.countP_append]
    split <;> simp [List.countP_cons]
  · rw [hmain]
  · rw [hmain, reset_eq]
    simp [hset]

theorem unarmed_alarm_is_timeout_witness :
    (Signal.set linux (some ⟨1, true⟩) ignoring).alarm_set = false ∧
    (Signal.set linux (some ⟨1, true⟩) ignoring).alarm_time = -1 ∧ (-1 : ℚ) ≤ 0 ∧
    (deliver linux 0 linux.SIGALRM (Signal.set linux (some ⟨1, true⟩) ignoring)).trace =
      [.catch_alarm ⟨1, true⟩] ∧
    (Signal.reset linux
      (deliver linux 0 linux.SIGALRM
        (Signal.set linux (some ⟨1, true⟩) ignoring))).caught_alarm = true := by
  have hthm := unarmed_alarm_is_timeout linux (Signal.set linux (some ⟨1, true⟩) ignoring) 0
    rfl rfl (by norm_num)
  refine ⟨rfl, rfl, by norm_num, ?_, hthm.2.2.2.2.2⟩
  rw [hthm.1]
  simp [alarm_report, set_eq, ignoring, State.initial]

/-- C14: over any OS disposition table `d`, from a state whose `SIGALRM`
slot is empty, after `Signal::set (h1)`, `Signal::set (h2)` and
`Signal::reset ()` the trampoline is the disposition of the four fatal
signals, a signal that is not monitored has its entry of `d`, all five slots
are empty and no handler is active; one more `Signal::reset ()` makes the
null disposition the disposition of the four, which is not the entry of `d`
wherever that entry is not null. -/
theorem double_set_loses_dispositions (N : SigNums) (d : Int → Disposition)
    (h1 h2 : Option Handler) (s0 : State) (hd : s0.os = d)
    (hslot : s0.SIGALRM_handler = .null) :
    (∀ x, IsFatal N x →
      (Signal.reset N (Signal.set N h2 (Signal.set N h1 s0))).os x = .trampoline) ∧
    (∀ x, ¬ IsMonitored N x →
      (Signal.reset N (Signal.set N h2 (Signal.set N h1 s0))).os x = d x) ∧
    (Signal.reset N (Signal.set N h2 (Signal.set N h1 s0))).SIGABRT_handler = .null ∧
    (Signal.reset N (Signal.set N h2 (Signal.set N h1 s0))).SIGINT_handler = .null ∧
    (Signal.reset N (Signal.set N h2 (Signal.set N h1 s0))).SIGSEGV_handler = .null ∧
    (Signal.reset N (Signal.set N h2 (Signal.set N h1 s0))).SIGTERM_handler = .null ∧
    (Signal.reset N (Signal.set N h2 (Signal.set N h1 s0))).SIGALRM_handler = .null ∧
    (Signal.reset N (Signal.set N h2 (Signal.set N h1 s0))).signal_handler = none ∧
    (∀ x, IsFatal N x →
      (Signal.reset N (Signal.reset N
        (Signal.set N h2 (Signal.set N h1 s0)))).os x = .null) ∧
    (∀ x, IsFatal N x → d x ≠ .null →
      (Signal.reset N (Signal.reset N
        (Signal.set N h2 (Signal.set N h1 s0)))).os x ≠ d x) := by
  subst hd
  have hfirst : ∀ x, IsFatal N x →
      (Signal.reset N (Signal.set N h2 (Signal.set N h1 s0))).os x = .trampoline := by
    intro x hx
    rw [reset_eq, set_eq, set_eq]
    simp only [hx.ne_alarm, false_and, if_false, hx, if_true]
    rw [fatal_slot_of_table N x _ (fun _ => Disposition.trampoline) hx] <;> simp
  have hsecond : ∀ x, IsFatal N x →
      (Signal.reset N (Signal.reset N
        (Signal.set N h2 (Signal.set N h1 s0)))).os x = .null := by
    intro x hx
    rw [reset_eq]
    simp only [hx.ne_alarm, false_and, if_false, hx, if_true]
    rw [fatal_slot_of_table N x _ (fun _ => Disposition.null) hx] <;> simp [reset_eq]
  refine ⟨hfirst, ?_, ?_, ?_, ?_, ?_, ?_, ?_, hsecond, ?_⟩
  · intro x hx
    have hnf : ¬ IsFatal N x := fun hc => hx (Or.inl hc)
    have hna : x ≠ N.SIGALRM := fun hc => hx (Or.inr hc)
    rw [reset_eq, set_eq, set_eq]
    simp only [hna, false_and, if_false, hnf]
  · simp [reset_eq]
  · simp [reset_eq]
  · simp [reset_eq]
  · simp [reset_eq]
  · rw [reset_eq, set_eq, set_eq]
    simp [hslot]
  · simp [reset_eq]
  · intro x hx hne
    rw [hsecond x hx]
    exact fun hc => hne hc.symm

theorem double_set_loses_dispositions_witness :
    ignoring.os = (fun _ => Disposition.ign) ∧ ignoring.SIGALRM_handler = .null ∧
    (Signal.reset linux (Signal.set linux (some ⟨2, true⟩)
      (Signal.set linux (some ⟨1, true⟩) ignoring))).os linux.SIGINT = .trampoline ∧
    (Signal.reset linux (Signal.reset linux (Signal.set linux (some ⟨2, true⟩)
      (Signal.set linux (some ⟨1, true⟩) ignoring)))).os linux.SIGINT = .null ∧
    (Signal.reset linux (Signal.reset linux (Signal.set linux (some ⟨2, true⟩)
      (Signal.set linux (some ⟨1, true⟩) ignoring)))).os linux.SIGINT ≠ Disposition.ign := by
  have hthm := double_set_loses_dispositions linux (fun _ => Disposition.ign)
    (some ⟨1, true⟩) (some ⟨2, true⟩) ignoring rfl rfl
  have hf : IsFatal linux linux.SIGINT := Or.inr (Or.inl rfl)
  exact ⟨rfl, rfl, hthm.1 _ hf, hthm.2.2.2.2.2.2.2.2.1 _ hf,
    hthm.2.2.2.2.2.2.2.2.2 _ hf (by decide)⟩

end CaDiCaL
